import Mathlib

/-
Verification of the Ark core (JSON-to-graph compiler and tree-walking
evaluator) against its specification.

The definitions below are a shallow embedding of the repository sources:
  * src/interpreter.ts  (runtime stack, values, references, evaluator)
  * src/parser.ts       (JSON compiler, symbol resolution, free variables)
  * src/serialize.ts    (serializer)
  * src/ffi.ts          (toJs host projection, as far as the core observes it)

Modelling conventions:
  * JavaScript numbers are modelled as rationals; all programs considered
    here compute only with integers, for which rational arithmetic agrees
    exactly with IEEE doubles.  NaN is a separate primitive.  Infinities and
    decimal formatting of non-integers are not modelled (no considered
    program produces them); the few spots relying on this carry a comment.
  * Mutable JavaScript objects that the claims can observe are given heap
    addresses: ArkValRef cells live in St.cells, the element array of an
    ArkList lives in St.arrays, and the property map of an ArkClass lives in
    St.dicts.  The runtime stack of frames is St.stack, front = top,
    exactly as RuntimeStack keeps frame 0 first.
  * The raw JavaScript undefined that can leak through holes in the
    interpreter's types (e.g. out-of-range list access) is the separate
    constructor hostUndefined; it is not one of the Ark values.
  * ArkMap and the NativeObject globals (fs, JSON, process) are opaque:
    no claim mentions them.  Reaching into them yields an explicit
    `unmodelled` marker rather than a guessed result.
-/

namespace Ark

/-- Raw primitive payloads of `ArkConcreteVal` (JS null, booleans, numbers,
strings; NaN kept apart since rationals cannot hold it). -/
inductive Prim where
  | null
  | bool (b : Bool)
  | num (q : ℚ)
  | str (s : String)
  | nan
deriving DecidableEq, Repr

/-- Host-side (JavaScript) values as observed through `toJs`: primitives,
undefined, or an opaque object together with the string its ToPrimitive
coercion yields. -/
inductive JsVal where
  | null
  | undef
  | bool (b : Bool)
  | num (q : ℚ)
  | str (s : String)
  | nan
  | object (primStr : String)
deriving DecidableEq, Repr

/-- Identifies the body of a `NativeFn`.  The interpreter's native functions
are the intrinsics table, the globals print/debug/RegExp, and the get/set
methods of `ArkList`, which close over the list's element array (modelled by
its heap address). -/
inductive NativeTag where
  | posFn | negFn | notFn | bitNot
  | breakFn | continueFn | returnFn
  | eqFn | neFn | ltFn | leFn | gtFn | geFn
  | add | sub | mul | divFn | modFn | powFn
  | bitAnd | bitOr | bitXor | shl | shr | ushr
  | printFn | debugFn | regExpFn
  | listGet (arrAddr : Nat)
  | listSet (arrAddr : Nat)
deriving DecidableEq, Repr

/-- The single value/expression hierarchy of interpreter.ts (expressions are
values; `ArkExp.eval` of a plain value is the identity).  Constructors carry
the debug-bag `name` entry exactly where the source can set one (Namespace
insertion and `Environment.getIndex`). -/
inductive ArkVal where
  /-- `ArkConcreteVal` (literal or interned value). -/
  | concrete (p : Prim)
  /-- The `ArkUndefined` sentinel object. -/
  | undef
  /-- Raw JavaScript `undefined` leaking through the interpreter's types;
  not an Ark value. -/
  | hostUndefined
  /-- `NativeFn`, with its debug name if a namespace set one. -/
  | nativeFn (nm : Option String) (tag : NativeTag)
  /-- `ArkClosure` (params, captured refs, body). -/
  | closure (params : List String) (captures : List ArkVal) (body : ArkVal)
  /-- `ArkFn` (params, boundFreeVars stack addresses, body). -/
  | fn (params : List String) (boundFreeVars : List ArkVal) (body : ArkVal)
  /-- `ArkValRef`: a mutable cell, heap-allocated at `addr`. -/
  | valRef (nm : Option String) (addr : Nat)
  /-- `ArkStackRef (level, index)`. -/
  | stackRef (nm : Option String) (lvl idx : Nat)
  /-- `ArkCaptureRef (index)` (never given a debug name by the source). -/
  | captureRef (idx : Nat)
  /-- `ArkPropertyRef (obj, prop)`. -/
  | propRef (obj : ArkVal) (prop : String)
  /-- `ArkObject`: its property map lives at `dictAddr`. -/
  | object (dictAddr : Nat)
  /-- `ArkList`: element array at `arrAddr`, method table at `dictAddr`. -/
  | list (arrAddr dictAddr : Nat)
  /-- `NativeObject` (fs, JSON, process, RegExp results): opaque. -/
  | nativeObject (nm : String)
  /-- `ArkGet`. -/
  | get (e : ArkVal)
  /-- `ArkSet`. -/
  | set (refE valE : ArkVal)
  /-- `ArkCall`. -/
  | call (fnE : ArkVal) (args : List ArkVal)
  /-- `ArkLet`. -/
  | letE (boundVars : List String) (body : ArkVal)
  /-- `ArkSequence`. -/
  | seq (exps : List ArkVal)
  /-- `ArkIf`. -/
  | ifE (cond thenE : ArkVal) (elseE : Option ArkVal)
  /-- `ArkAnd`. -/
  | and (l r : ArkVal)
  /-- `ArkOr`. -/
  | or (l r : ArkVal)
  /-- `ArkLoop`. -/
  | loop (body : ArkVal)
  /-- `ArkListLiteral`. -/
  | listLit (elems : List ArkVal)
  /-- `ArkObjectLiteral`. -/
  | objLit (fields : List (String × ArkVal))
  /-- `ArkProperty (prop, obj)`. -/
  | property (prop : String) (objE : ArkVal)

/-- The `name` entry of a value's debug bag (used by `ArkGet` error messages
and by the serializer's shortcut). -/
def debugName : ArkVal → Option String
  | .nativeFn nm _ => nm
  | .valRef nm _ => nm
  | .stackRef nm _ _ => nm
  | _ => none

/-- A stack frame: a pair of local variable slots and captured references
(`RuntimeStack` constructor comment: each frame is a pair of local vars and
captures). -/
abbrev Frame := List ArkVal × List ArkVal

/-- The mutable runtime state: ArkValRef cells, ArkList element arrays,
ArkClass property maps, and the runtime stack of frames (front = frame 0 =
current, as in `RuntimeStack`). -/
structure St where
  cells : List ArkVal
  arrays : List (List ArkVal)
  dicts : List (List (String × ArkVal))
  stack : List Frame

/-- Update one position of a list, leaving the list unchanged when the index
is out of range. -/
def listUpd : List α → Nat → α → List α
  | [], _, _ => []
  | _ :: xs, 0, v => v :: xs
  | x :: xs, n + 1, v => x :: listUpd xs n v

/-- Allocate a fresh ArkValRef cell holding `v`; returns its address. -/
def allocCell (v : ArkVal) (s : St) : Nat × St :=
  (s.cells.length, ⟨s.cells ++ [v], s.arrays, s.dicts, s.stack⟩)

/-- Overwrite the contents of an ArkValRef cell (`ArkValRef.set`). -/
def setCell (a : Nat) (v : ArkVal) (s : St) : St :=
  ⟨listUpd s.cells a v, s.arrays, s.dicts, s.stack⟩

/-- Allocate a fresh ArkList element array. -/
def allocArray (elems : List ArkVal) (s : St) : Nat × St :=
  (s.arrays.length, ⟨s.cells, s.arrays ++ [elems], s.dicts, s.stack⟩)

/-- Allocate a fresh ArkClass property map. -/
def allocDict (d : List (String × ArkVal)) (s : St) : Nat × St :=
  (s.dicts.length, ⟨s.cells, s.arrays, s.dicts ++ [d], s.stack⟩)

/-- `RuntimeStack.pushFrame`: unshift a frame at the front. -/
def pushFrame (f : Frame) (s : St) : St :=
  ⟨s.cells, s.arrays, s.dicts, f :: s.stack⟩

/-- `RuntimeStack.popFrame`: shift the front frame off. -/
def popFrame (s : St) : St :=
  ⟨s.cells, s.arrays, s.dicts, s.stack.tail⟩

/-- `RuntimeStack.push(items)`: append cells to frame 0's locals.  (An empty
stack is unreachable: the constructor asserts non-emptiness.) -/
def pushLocals (items : List ArkVal) (s : St) : St :=
  match s.stack with
  | [] => s
  | (locs, caps) :: rest => ⟨s.cells, s.arrays, s.dicts, (locs ++ items, caps) :: rest⟩

/-- `RuntimeStack.pop(nItems)`: the source loops `this.stack.pop()`, i.e. it
removes whole frames from the END of the frame array (the bottom of the
stack), `nItems` times; `Array.prototype.pop` on an empty array is a no-op. -/
def stackPop : Nat → St → St
  | 0, s => s
  | n + 1, s => stackPop n ⟨s.cells, s.arrays, s.dicts, s.stack.dropLast⟩

/-- Read `stack.stack[lvl][0][idx]`; a JavaScript out-of-range read yields
undefined. -/
def getStackSlot (lvl idx : Nat) (s : St) : ArkVal :=
  match s.stack.get? lvl with
  | some (locs, _) => (locs.get? idx).getD .hostUndefined
  | none => .hostUndefined

/-- Write `stack.stack[lvl][0][idx] = v` (`ArkStackRef.set`). -/
def setStackSlot (lvl idx : Nat) (v : ArkVal) (s : St) : St :=
  match s.stack.get? lvl with
  | some (locs, caps) =>
      ⟨s.cells, s.arrays, s.dicts, listUpd s.stack lvl (listUpd locs idx v, caps)⟩
  | none => s

/-- The capture array of the current frame (`stack.stack[0][1]`). -/
def frameCaptures (s : St) : List ArkVal :=
  match s.stack with
  | (_, caps) :: _ => caps
  | [] => []

end Ark

namespace Ark

/-- Truncation toward zero (JavaScript's ToInt-style truncation). -/
def ratTrunc (q : ℚ) : ℤ :=
  if q < 0 then -((-q).floor) else q.floor

/-- JS number formatting, exact for integers.  Decimal formatting of
non-integer doubles is not modelled; no considered program stringifies a
non-integer. -/
def ratToString (q : ℚ) : String :=
  if q.den = 1 then toString q.num else "<non-integer>"

/-- ToPrimitive: plain interpreter objects have no custom valueOf/toString,
so they coerce to their Object.prototype.toString string. -/
def toPrimitive : JsVal → JsVal
  | .object t => .str t
  | v => v

/-- ToString on primitives. -/
def jsToString : JsVal → String
  | .null => "null"
  | .undef => "undefined"
  | .bool true => "true"
  | .bool false => "false"
  | .num q => ratToString q
  | .str s => s
  | .nan => "NaN"
  | .object t => t

/-- ToNumber on primitives; `none` stands for NaN.  String parsing is exact
for integer literals and the empty string (no considered program feeds any
other string to arithmetic). -/
def toNumOpt : JsVal → Option ℚ
  | .null => some 0
  | .undef => none
  | .bool true => some 1
  | .bool false => some 0
  | .num q => some q
  | .nan => none
  | .str s => if s = "" then some 0 else (s.toInt?).map (fun n => (n : ℚ))
  | .object _ => none

/-- Is this primitive a string (after ToPrimitive)? -/
def isStrJs : JsVal → Bool
  | .str _ => true
  | _ => false

/-- JS truthiness of a host value. -/
def jsTruthy : JsVal → Bool
  | .null => false
  | .undef => false
  | .bool b => b
  | .num q => q ≠ 0
  | .str s => s ≠ ""
  | .nan => false
  | .object _ => true

/-- Rational addition with an integer fast path.  The two branches agree
(`qAdd_eq_add` below); the fast path keeps whole-program computations
reducible for the kernel, since every considered program adds integers. -/
def qAdd (a b : ℚ) : ℚ :=
  if a.den = 1 ∧ b.den = 1 then ((a.num + b.num : ℤ) : ℚ) else a + b

/-- The fast path of `qAdd` is ordinary rational addition. -/
theorem qAdd_eq_add (a b : ℚ) : qAdd a b = a + b := by
  unfold qAdd
  split
  · next h =>
      obtain ⟨ha, hb⟩ := h
      rw [Int.cast_add, Rat.coe_int_num_of_den_eq_one ha,
        Rat.coe_int_num_of_den_eq_one hb]
  · rfl

/-- JS `+`: ToPrimitive both operands, concatenate if either is a string,
otherwise numeric addition (NaN-propagating). -/
def jsAdd (a b : JsVal) : JsVal :=
  let a' := toPrimitive a
  let b' := toPrimitive b
  if isStrJs a' || isStrJs b' then
    .str (jsToString a' ++ jsToString b')
  else
    match toNumOpt a', toNumOpt b' with
    | some x, some y => .num (qAdd x y)
    | _, _ => .nan

/-- Numeric binary operators (`-`, `*`): ToNumber both sides. -/
def jsNumBin (f : ℚ → ℚ → ℚ) (a b : JsVal) : JsVal :=
  match toNumOpt (toPrimitive a), toNumOpt (toPrimitive b) with
  | some x, some y => .num (f x y)
  | _, _ => .nan

/-- JS `/`.  Division by zero yields Infinity/NaN in JS; infinities are not
modelled, so both cases collapse to NaN here (no considered program divides
by zero). -/
def jsDiv (a b : JsVal) : JsVal :=
  match toNumOpt (toPrimitive a), toNumOpt (toPrimitive b) with
  | some x, some y => if y = 0 then .nan else .num (x / y)
  | _, _ => .nan

/-- JS `%` (sign of the dividend). -/
def jsMod (a b : JsVal) : JsVal :=
  match toNumOpt (toPrimitive a), toNumOpt (toPrimitive b) with
  | some x, some y => if y = 0 then .nan else .num (x - y * (ratTrunc (x / y) : ℚ))
  | _, _ => .nan

/-- JS `**`, exact for non-negative integer exponents (the only exponents a
considered program uses). -/
def jsPow (a b : JsVal) : JsVal :=
  match toNumOpt (toPrimitive a), toNumOpt (toPrimitive b) with
  | some x, some y =>
      if y.den = 1 ∧ 0 ≤ y.num then .num (x ^ y.num.toNat) else .nan
  | _, _ => .nan

/-- JS `<`: string comparison if both primitives are strings, else numeric
(false on NaN). -/
def jsLess (a b : JsVal) : Bool :=
  match toPrimitive a, toPrimitive b with
  | .str s1, .str s2 => decide (s1 < s2)
  | a', b' =>
      match toNumOpt a', toNumOpt b' with
      | some x, some y => decide (x < y)
      | _, _ => false

/-- JS `<=` (false on NaN). -/
def jsLessEq (a b : JsVal) : Bool :=
  match toPrimitive a, toPrimitive b with
  | .str s1, .str s2 => decide (s1 ≤ s2)
  | a', b' =>
      match toNumOpt a', toNumOpt b' with
      | some x, some y => decide (x ≤ y)
      | _, _ => false

/-- JS `===` on toJs-projected values.  Object identity is not tracked by
the embedding, so object-object comparison is not modelled (no considered
program compares non-primitives). -/
def jsStrictEq (a b : JsVal) : Bool :=
  match a, b with
  | .null, .null => true
  | .undef, .undef => true
  | .bool x, .bool y => x = y
  | .num x, .num y => x = y
  | .str x, .str y => x = y
  | _, _ => false

/-- ToInt32. -/
def toInt32 (q : ℚ) : ℤ :=
  let m := (ratTrunc q).emod 4294967296
  if m ≥ 2147483648 then m - 4294967296 else m

/-- ToInt32 of a host value (NaN becomes 0, as in JS). -/
def toInt32Js (v : JsVal) : ℤ :=
  match toNumOpt (toPrimitive v) with
  | some q => toInt32 q
  | none => 0

/-- Two's-complement view of an int32 as a Nat below 2^32. -/
def asUInt32 (n : ℤ) : ℕ := (n.emod 4294967296).toNat

/-- Back from the two's-complement view. -/
def fromUInt32 (m : ℕ) : ℤ :=
  if m ≥ 2147483648 then (m : ℤ) - 4294967296 else (m : ℤ)

/-- JS bitwise binary operator on int32s. -/
def jsBitBin (f : ℕ → ℕ → ℕ) (a b : JsVal) : JsVal :=
  .num ((fromUInt32 (f (asUInt32 (toInt32Js a)) (asUInt32 (toInt32Js b)) % 4294967296) : ℤ) : ℚ)

/-- JS `<<`. -/
def jsShl (a b : JsVal) : JsVal :=
  jsBitBin (fun x y => x <<< (y % 32)) a b

/-- JS `>>` (arithmetic shift = floor division by a power of two). -/
def jsShr (a b : JsVal) : JsVal :=
  .num ((Int.ediv (toInt32Js a) (2 ^ (asUInt32 (toInt32Js b) % 32)) : ℤ) : ℚ)

/-- JS `>>>` (logical shift on the two's-complement view). -/
def jsUshr (a b : JsVal) : JsVal :=
  .num (((asUInt32 (toInt32Js a)) >>> (asUInt32 (toInt32Js b) % 32) : ℕ) : ℚ)

/-- ffi.ts `toJs`, as far as the core observes it: concretes project to
their raw payload; every other interpreter object is returned as itself,
i.e. as a host object whose ToPrimitive string is the default
"[object Object]" (arrays' element-join coercion is not modelled; no
considered program coerces a list). -/
def toJs : ArkVal → JsVal
  | .concrete .null => .null
  | .concrete (.bool b) => .bool b
  | .concrete (.num q) => .num q
  | .concrete (.str s) => .str s
  | .concrete .nan => .nan
  | .hostUndefined => .undef
  | .list _ _ => .object "<array>"
  | _ => .object "[object Object]"

/-- ArkNumber/ArkBoolean/... wrap whatever raw value toJs-arithmetic
produced (ConcreteInterned.value is typed but unchecked). -/
def primOfJs : JsVal → Prim
  | .null => .null
  | .bool b => .bool b
  | .num q => .num q
  | .str s => .str s
  | .nan => .nan
  | .undef => .null   -- unreachable: no arithmetic result is undefined
  | .object _ => .null -- unreachable: arithmetic results are primitives

end Ark

namespace Ark

/-- The non-local control signals (`ArkBreakException`,
`ArkContinueException`, `ArkReturnException`), each carrying a value
(default `ArkNull`). -/
inductive Sig where
  | brk (v : ArkVal)
  | cont (v : ArkVal)
  | ret (v : ArkVal)

/-- Runtime failures the evaluator itself can raise.  `typeError` stands for
a JavaScript TypeError (e.g. calling `.get` on a value that has none);
`unmodelled` marks the boundary of the embedding (NativeObject internals),
never reached by a considered program. -/
inductive EvalErr where
  | invalidCall
  | invalidAssignment
  | uninitializedSymbol (nm : Option String)
  | typeError (what : String)
  | unmodelled (what : String)
deriving DecidableEq, Repr

/-- Outcome of evaluating one expression. -/
inductive EOut where
  | val (v : ArkVal)
  | err (e : EvalErr)
  | sig (s : Sig)
  | timeout

/-- `argOrNull`: the `val` parameter of break/return is defaulted to
`ArkNull()` when the call passed nothing (or JS undefined). -/
def argOrNull (args : List ArkVal) : ArkVal :=
  match args.get? 0 with
  | none => .concrete .null
  | some .hostUndefined => .concrete .null
  | some v => v

/-- Fetch the i-th argument of a NativeFn body; a missing argument is the
raw JS undefined. -/
def argOr (args : List ArkVal) (i : Nat) : ArkVal :=
  (args.get? i).getD .hostUndefined

/-- Look up a key in an ArkClass property map. -/
def dictLookup : List (String × ArkVal) → String → Option ArkVal
  | [], _ => none
  | (k, v) :: rest, key => if k = key then some v else dictLookup rest key

/-- `Map.set` on an ArkClass property map: overwrite in place or append. -/
def dictSet : List (String × ArkVal) → String → ArkVal → List (String × ArkVal)
  | [], key, v => [(key, v)]
  | (k, w) :: rest, key, v =>
      if k = key then (k, v) :: rest else (k, w) :: dictSet rest key v

/-- `ArkPropertyRef.get`: `this.obj.get(this.prop) ?? ArkNull()`.  On a
value with no `get` method the JS call crashes (TypeError). -/
def objGetProp (obj : ArkVal) (prop : String) (s : St) : Except EvalErr ArkVal :=
  match obj with
  | .object d => .ok ((dictLookup ((s.dicts.get? d).getD []) prop).getD (.concrete .null))
  | .list _ d => .ok ((dictLookup ((s.dicts.get? d).getD []) prop).getD (.concrete .null))
  | .nativeObject _ => .error (.unmodelled "NativeObject property access")
  | _ => .error (.typeError "property access on non-object")

/-- `ArkPropertyRef.set`. -/
def objSetProp (obj : ArkVal) (prop : String) (v : ArkVal) (s : St) : Except EvalErr St :=
  match obj with
  | .object d =>
      .ok ⟨s.cells, s.arrays, listUpd s.dicts d (dictSet ((s.dicts.get? d).getD []) prop v), s.stack⟩
  | .list _ d =>
      .ok ⟨s.cells, s.arrays, listUpd s.dicts d (dictSet ((s.dicts.get? d).getD []) prop v), s.stack⟩
  | .nativeObject _ => .error (.unmodelled "NativeObject property update")
  | _ => .error (.typeError "property update on non-object")

/-- `ref.get(stack)`: dynamic dispatch on the four `ArkRef` variants, plus
the behaviour JS gives every other value the evaluator may cast to ArkRef:
`ArkClass.get(prop)` called with the stack object as key misses the map and
yields JS undefined; `NativeObject.get` turns that miss into `ArkNull` via
`fromJs(undefined)`; anything else has no `get` method at all (TypeError).
The fuel only bounds capture-chain hops (a cycle would be a JS stack
overflow); real chains are one wrapper deep. -/
def refGet : Nat → ArkVal → St → Except EvalErr ArkVal
  | 0, _, _ => .error (.typeError "reference chain too deep")
  | _ + 1, .valRef _ a, s => .ok ((s.cells.get? a).getD .hostUndefined)
  | _ + 1, .stackRef _ lvl idx, s => .ok (getStackSlot lvl idx s)
  | fuel + 1, .captureRef i, s =>
      match (frameCaptures s).get? i with
      | some r => refGet fuel r s
      | none => .error (.typeError "missing capture slot")
  | _ + 1, .propRef obj prop, s => objGetProp obj prop s
  | _ + 1, .object _, _ => .ok .hostUndefined
  | _ + 1, .list _ _, _ => .ok .hostUndefined
  | _ + 1, .nativeObject _, _ => .ok (.concrete .null)
  | _ + 1, _, _ => .error (.typeError "get of non-reference")

/-- `ref.set(stack, v)`. -/
def refSet : Nat → ArkVal → ArkVal → St → Except EvalErr St
  | 0, _, _, _ => .error (.typeError "reference chain too deep")
  | _ + 1, .valRef _ a, v, s => .ok (setCell a v s)
  | _ + 1, .stackRef _ lvl idx, v, s => .ok (setStackSlot lvl idx v s)
  | fuel + 1, .captureRef i, v, s =>
      match (frameCaptures s).get? i with
      | some r => refSet fuel r v s
      | none => .error (.typeError "missing capture slot")
  | _ + 1, .propRef obj prop, v, s => objSetProp obj prop v s
  | _ + 1, _, _, _ => .error (.typeError "set of non-reference")

/-- `instanceof ArkRef`. -/
def isRefB : ArkVal → Bool
  | .valRef _ _ => true
  | .stackRef _ _ _ => true
  | .captureRef _ => true
  | .propRef _ _ => true
  | _ => false

/-- Construct an `ArkList`: allocate the element array, then the class map
`Namespace([get, set])` (whose NativeFns close over the array) and the
snapshotted `length` property, in source order. -/
def mkArkList (elems : List ArkVal) (s : St) : ArkVal × St :=
  let (arrA, s1) := allocArray elems s
  let d : List (String × ArkVal) :=
    [("get", .nativeFn (some "get") (.listGet arrA)),
     ("set", .nativeFn (some "set") (.listSet arrA)),
     ("length", .concrete (.num (elems.length : ℚ)))]
  let (dictA, s2) := allocDict d s1
  (.list arrA dictA, s2)

/-- Allocate one fresh `ArkValRef` cell per given content, in order. -/
def bindCells : List ArkVal → St → List ArkVal × St
  | [], s => ([], s)
  | v :: vs, s =>
      let (a, s1) := allocCell v s
      let (rest, s2) := bindCells vs s1
      (ArkVal.valRef none a :: rest, s2)

/-- `bindArgsToParams`: one fresh `ArkValRef` cell per parameter holding the
corresponding argument (or `ArkUndefined`), plus, if there are extra
arguments, one final cell holding an `ArkList` of them. -/
def bindArgsToParams (params : List String) (args : List ArkVal) (s : St) :
    List ArkVal × St :=
  -- `args[index] ?? ArkUndefined`: nullish coalescing fires on a raw JS
  -- undefined whether the argument is missing or explicitly that value
  let contents := (List.range params.length).map
    (fun i => match args.get? i with
              | none => ArkVal.undef
              | some .hostUndefined => ArkVal.undef
              | some v => v)
  let (frame, s1) := bindCells contents s
  if params.length < args.length then
    let (lv, s2) := mkArkList (args.drop params.length) s1
    let (a, s3) := allocCell lv s2
    (frame ++ [ArkVal.valRef none a], s3)
  else
    (frame, s1)

/-- `ArkState.captureFreeVars`: for each bound free variable
`StackRef(level, index)` of the `ArkFn`, wrap the CURRENT CONTENT of the
slot one frame up (`stack[level-1][0][index]`) in a fresh `ArkValRef`. -/
def captureFreeVars : List ArkVal → St → List ArkVal × St
  | [], s => ([], s)
  | loc :: rest, s =>
      let content :=
        match loc with
        | .stackRef _ lvl idx => getStackSlot (lvl - 1) idx s
        | _ => .hostUndefined   -- unreachable: boundFreeVars are ArkStackRefs
      let (a, s1) := allocCell content s
      let (others, s2) := captureFreeVars rest s1
      (ArkVal.valRef none a :: others, s2)

/-- The body of each `NativeFn` (intrinsics table, globals, list methods). -/
def callNative (tag : NativeTag) (args : List ArkVal) (s : St) : EOut × St :=
  match tag with
  | .printFn => (.val (.concrete .null), s)   -- console output is not observed
  | .debugFn => (.val (.concrete .null), s)
  | .regExpFn => (.val (.nativeObject "RegExp"), s)
  | .breakFn => (.sig (.brk (argOrNull args)), s)
  | .continueFn => (.sig (.cont (.concrete .null)), s)
  | .returnFn => (.sig (.ret (argOrNull args)), s)
  | .posFn =>
      (.val (.concrete (primOfJs
        (match toNumOpt (toPrimitive (toJs (argOr args 0))) with
         | some q => .num q
         | none => .nan))), s)
  | .negFn =>
      (.val (.concrete (primOfJs
        (match toNumOpt (toPrimitive (toJs (argOr args 0))) with
         | some q => .num (-q)
         | none => .nan))), s)
  | .notFn => (.val (.concrete (.bool (!jsTruthy (toJs (argOr args 0))))), s)
  | .bitNot => (.val (.concrete (.num ((-(toInt32Js (toJs (argOr args 0))) - 1 : ℤ) : ℚ))), s)
  | .eqFn => (.val (.concrete (.bool (jsStrictEq (toJs (argOr args 0)) (toJs (argOr args 1))))), s)
  | .neFn => (.val (.concrete (.bool (!jsStrictEq (toJs (argOr args 0)) (toJs (argOr args 1))))), s)
  | .ltFn => (.val (.concrete (.bool (jsLess (toJs (argOr args 0)) (toJs (argOr args 1))))), s)
  | .leFn => (.val (.concrete (.bool (jsLessEq (toJs (argOr args 0)) (toJs (argOr args 1))))), s)
  | .gtFn => (.val (.concrete (.bool (jsLess (toJs (argOr args 1)) (toJs (argOr args 0))))), s)
  | .geFn => (.val (.concrete (.bool (jsLessEq (toJs (argOr args 1)) (toJs (argOr args 0))))), s)
  | .add => (.val (.concrete (primOfJs (jsAdd (toJs (argOr args 0)) (toJs (argOr args 1))))), s)
  | .sub => (.val (.concrete (primOfJs (jsNumBin (fun x y => x - y) (toJs (argOr args 0)) (toJs (argOr args 1))))), s)
  | .mul => (.val (.concrete (primOfJs (jsNumBin (fun x y => x * y) (toJs (argOr args 0)) (toJs (argOr args 1))))), s)
  | .divFn => (.val (.concrete (primOfJs (jsDiv (toJs (argOr args 0)) (toJs (argOr args 1))))), s)
  | .modFn => (.val (.concrete (primOfJs (jsMod (toJs (argOr args 0)) (toJs (argOr args 1))))), s)
  | .powFn => (.val (.concrete (primOfJs (jsPow (toJs (argOr args 0)) (toJs (argOr args 1))))), s)
  | .bitAnd => (.val (.concrete (primOfJs (jsBitBin Nat.land (toJs (argOr args 0)) (toJs (argOr args 1))))), s)
  | .bitOr => (.val (.concrete (primOfJs (jsBitBin Nat.lor (toJs (argOr args 0)) (toJs (argOr args 1))))), s)
  | .bitXor => (.val (.concrete (primOfJs (jsBitBin Nat.xor (toJs (argOr args 0)) (toJs (argOr args 1))))), s)
  | .shl => (.val (.concrete (primOfJs (jsShl (toJs (argOr args 0)) (toJs (argOr args 1))))), s)
  | .shr => (.val (.concrete (primOfJs (jsShr (toJs (argOr args 0)) (toJs (argOr args 1))))), s)
  | .ushr => (.val (.concrete (primOfJs (jsUshr (toJs (argOr args 0)) (toJs (argOr args 1))))), s)
  | .listGet a =>
      -- `(index) => this.list[toJs(index)]`: integer keys index the array
      -- (out of range gives JS undefined); non-integer keys miss.  String
      -- keys hitting array properties ("length", numeric strings) are not
      -- modelled — claim C10 concerns integer indices only.
      let elems := (s.arrays.get? a).getD []
      match toJs (argOr args 0) with
      | .num q =>
          if q.den = 1 ∧ 0 ≤ q.num ∧ q.num < (elems.length : ℤ) then
            (.val (elems.getD q.num.toNat .hostUndefined), s)
          else
            (.val .hostUndefined, s)
      | _ => (.val .hostUndefined, s)
  | .listSet a =>
      -- `(index, val) => { this.list[toJs(index)] = val; return val }`;
      -- assigning past the end pads the array with holes (JS undefined).
      let elems := (s.arrays.get? a).getD []
      match toJs (argOr args 0) with
      | .num q =>
          if q.den = 1 ∧ 0 ≤ q.num then
            let i := q.num.toNat
            let padded := if i < elems.length then elems
                          else elems ++ List.replicate (i + 1 - elems.length) ArkVal.hostUndefined
            (.val (argOr args 1),
             ⟨s.cells, listUpd s.arrays a (listUpd padded i (argOr args 1)), s.dicts, s.stack⟩)
          else (.val (argOr args 1), s)   -- non-index key: string property, not modelled
      | _ => (.val (argOr args 1), s)
end Ark

namespace Ark

/-- `ArkState.evaluateArgs` / element-wise literal evaluation: evaluate each
expression left to right with the given evaluator, aborting on the first
non-value outcome (whose state carries the side effects so far). -/
def evalListWith (ev : ArkVal → St → EOut × St) :
    List ArkVal → St → Except (EOut × St) (List ArkVal × St)
  | [], s => .ok ([], s)
  | x :: xs, s =>
      match ev x s with
      | (.val v, s1) =>
          match evalListWith ev xs s1 with
          | .ok (vs, s2) => .ok (v :: vs, s2)
          | .error o => .error o
      | other => .error other

/-- `ArkSequence.eval`: fold left to right, starting from `ArkNull`. -/
def evalSeqWith (ev : ArkVal → St → EOut × St) :
    List ArkVal → ArkVal → St → EOut × St
  | [], res, s => (.val res, s)
  | x :: xs, _, s =>
      match ev x s with
      | (.val v, s1) => evalSeqWith ev xs v s1
      | other => other

/-- Evaluate the values of an object literal's fields in order. -/
def evalFieldsWith (ev : ArkVal → St → EOut × St) :
    List (String × ArkVal) → St → Except (EOut × St) (List (String × ArkVal) × St)
  | [], s => .ok ([], s)
  | (k, x) :: xs, s =>
      match ev x s with
      | (.val v, s1) =>
          match evalFieldsWith ev xs s1 with
          | .ok (vs, s2) => .ok ((k, v) :: vs, s2)
          | .error o => .error o
      | other => .error other

/-- The evaluator (`eval` methods of interpreter.ts), fuel-indexed.  Each
clause is a direct transcription of the corresponding `eval`/`call` method;
the deliberate translation of two source slips is marked in place:
`ArkClosure.call` does not pop the pushed frame when it catches
`ArkReturnException`, and `ArkLet.eval` restores via `RuntimeStack.pop`,
which removes whole frames from the bottom of the stack. -/
def eval : Nat → ArkVal → St → EOut × St
  | 0, _, s => (.timeout, s)
  | fuel + 1, e, s =>
    match e with
    | .concrete _ => (.val e, s)                     -- ArkExp.eval returns this
    | .nativeFn _ _ => (.val e, s)
    | .closure _ _ _ => (.val e, s)
    | .undef => (.err (.typeError "eval of non-expression"), s)       -- no eval method
    | .hostUndefined => (.err (.typeError "eval of non-expression"), s)
    | .object _ => (.err (.typeError "eval of non-expression"), s)
    | .list _ _ => (.err (.typeError "eval of non-expression"), s)
    | .nativeObject _ => (.err (.typeError "eval of non-expression"), s)
    | .fn params bfv body =>                         -- ArkFn.eval
        let (caps, s1) := captureFreeVars bfv s
        (.val (.closure params caps body), s1)
    | .valRef _ _ | .stackRef _ _ _ | .captureRef _ | .propRef _ _ =>
        -- ArkRef.eval: return this.get(ark.stack)
        (match refGet (fuel + 1) e s with
         | .ok v => (.val v, s)
         | .error er => (.err er, s))
    | .get sub =>                                    -- ArkGet.eval
        (match eval fuel sub s with
         | (.val r, s1) =>
             (match refGet (fuel + 1) r s1 with
              | .ok v =>
                  match v with
                  | .undef => (.err (.uninitializedSymbol (debugName sub)), s1)
                  | _ => (.val v, s1)
              | .error er => (.err er, s1))
         | other => other)
    | .set refE valE =>                              -- ArkSet.eval
        (match eval fuel refE s with
         | (.val r, s1) =>
             (match eval fuel valE s1 with
              | (.val res, s2) =>
                  if isRefB r then
                    match refSet (fuel + 1) r res s2 with
                    | .ok s3 => (.val res, s3)
                    | .error er => (.err er, s2)
                  else
                    (.err .invalidAssignment, s2)
              | other => other)
         | other => other)
    | .call fnE args =>                              -- ArkCall.eval
        (match eval fuel fnE s with
         | (.val fnVal, s1) =>
             (match fnVal with
              | .closure params caps body =>         -- ArkClosure.call
                  (match evalListWith (eval fuel) args s1 with
                   | .ok (vals, s2) =>
                       let (frame, s3) := bindArgsToParams params vals s2
                       let s4 := pushFrame (frame, caps) s3
                       (match eval fuel body s4 with
                        | (.val r, s5) => (.val r, popFrame s5)
                        | (.sig (.ret r), s5) => (.val r, s5)
                          -- source slip: the catch of ArkReturnException
                          -- does not pop the frame pushed above
                        | other => other)
                   | .error o => o)
              | .nativeFn _ tag =>                   -- NativeFn.call
                  (match evalListWith (eval fuel) args s1 with
                   | .ok (vals, s2) => callNative tag vals s2
                   | .error o => o)
              | _ => (.err .invalidCall, s1))
         | other => other)
    | .letE vars body =>                             -- ArkLet.eval
        let (lets, s1) := bindArgsToParams vars [] s
        let s2 := pushLocals lets s1
        (match eval fuel body s2 with
         | (.val r, s3) => (.val r, stackPop lets.length s3)
           -- source slip: RuntimeStack.pop removes frames, not local slots
         | other => other)
    | .seq exps => evalSeqWith (eval fuel) exps (.concrete .null) s
    | .ifE cond thenE elseE =>                       -- ArkIf.eval
        (match eval fuel cond s with
         | (.val cv, s1) =>
             if jsTruthy (toJs cv) then eval fuel thenE s1
             else
               match elseE with
               | some el => eval fuel el s1
               | none => (.val (.concrete .null), s1)
         | other => other)
    | .and l r =>                                    -- ArkAnd.eval
        (match eval fuel l s with
         | (.val lv, s1) => if jsTruthy (toJs lv) then eval fuel r s1 else (.val lv, s1)
         | other => other)
    | .or l r =>                                     -- ArkOr.eval
        (match eval fuel l s with
         | (.val lv, s1) => if jsTruthy (toJs lv) then (.val lv, s1) else eval fuel r s1
         | other => other)
    | .loop body =>                                  -- ArkLoop.eval
        (match eval fuel body s with
         | (.val _, s1) => eval fuel (.loop body) s1
         | (.sig (.brk v), s1) => (.val v, s1)
         | (.sig (.cont _), s1) => eval fuel (.loop body) s1
         | other => other)
    | .listLit elems =>                              -- ArkListLiteral.eval
        (match evalListWith (eval fuel) elems s with
         | .ok (vs, s1) =>
             let (lv, s2) := mkArkList vs s1
             (.val lv, s2)
         | .error o => o)
    | .objLit fields =>                              -- ArkObjectLiteral.eval
        (match evalFieldsWith (eval fuel) fields s with
         | .ok (vs, s1) =>
             let (d, s2) := allocDict vs s1
             (.val (.object d), s2)
         | .error o => o)
    | .property prop objE =>                         -- ArkProperty.eval
        (match eval fuel objE s with
         | (.val o, s1) => (.val (.propRef o prop), s1)
         | other => other)

end Ark

namespace Ark

/-- Decoded JSON input of `compile`. -/
inductive Json where
  | null
  | bool (b : Bool)
  | num (q : ℚ)
  | str (s : String)
  | arr (elems : List Json)
  | obj (fields : List (String × Json))
deriving Repr

/-- `ArkCompilerError` variants.  `unmodelled` marks the `map` form, which
no claim mentions. -/
inductive CErr where
  | invalidForm (what : String)
  | badParamType
  | duplicateParams
  | undefinedSymbol (nm : String)
  | unmodelled (what : String)
deriving DecidableEq, Repr

/-- The free-variable map: insertion-ordered association from a name to
every `ArkStackRef` produced for it (`FreeVars extends Map`). -/
abbrev FVars := List (String × List ArkVal)

/-- Append refs under a key, keeping the key's first-insertion position
(`FreeVars.merge` for a single entry). -/
def fvAdd (acc : FVars) (nm : String) (refs : List ArkVal) : FVars :=
  match acc with
  | [] => [(nm, refs)]
  | (k, rs) :: rest =>
      if k = nm then (k, rs ++ refs) :: rest else (k, rs) :: fvAdd rest nm refs

/-- `FreeVars.merge`. -/
def fvMerge (acc more : FVars) : FVars :=
  match more with
  | [] => acc
  | (nm, refs) :: rest => fvMerge (fvAdd acc nm refs) rest

/-- `Map.delete` of every bound parameter. -/
def fvDelete (names : List String) (fv : FVars) : FVars :=
  fv.filter (fun p => !names.contains p.fst)

/-- The keys of the free-variable map, in insertion order. -/
def fvKeys (fv : FVars) : List String := fv.map Prod.fst

/-- `[...freeVars.values()].flat()`: the bound-free-variable list of an
`ArkFn` (note: one entry per OCCURRENCE, in key order). -/
def fvFlatten (fv : FVars) : List ArkVal := (fv.map Prod.snd).flatten

/-- The compile-time environment (`Environment`): a stack of frames, each a
pair of local names and capture names; frame 0 first.  The external-symbols
namespace is fixed to the default globals. -/
structure CEnv where
  stack : List (List String × List String)

/-- `Environment.push(items)`: extend frame 0's locals. -/
def envPush (items : List String) (env : CEnv) : CEnv :=
  match env.stack with
  | [] => env
  | (locs, caps) :: rest => ⟨(locs ++ items, caps) :: rest⟩

/-- `Environment.pushFrame(frame)`. -/
def envPushFrame (f : List String × List String) (env : CEnv) : CEnv :=
  ⟨f :: env.stack⟩

/-- Record a new capture name at the end of frame 0's captures
(`env.stack[0][1].push(name)` in `symRef`). -/
def envPushCapture (nm : String) (env : CEnv) : CEnv :=
  match env.stack with
  | [] => env
  | (locs, caps) :: rest => ⟨(locs, caps ++ [nm]) :: rest⟩

/-- Frame 0's capture names. -/
def envCaptures (env : CEnv) : List String :=
  match env.stack with
  | (_, caps) :: _ => caps
  | [] => []

/-- After compiling a subterm in `env.push(params)`, the parent continues
with its own frame-0 locals but SHARES the frame-0 captures array with the
child (the source aliases it), so captures recorded inside the child
survive. -/
def envRestoreLocals (origLocals : List String) (envAfter : CEnv) : CEnv :=
  match envAfter.stack with
  | [] => envAfter
  | (_, caps) :: rest => ⟨(origLocals, caps) :: rest⟩

/-- `Array.prototype.lastIndexOf`. -/
def lastIdxOf : List String → String → Option Nat
  | [], _ => none
  | x :: xs, nm =>
      match lastIdxOf xs nm with
      | some i => some (i + 1)
      | none => if x = nm then some 0 else none

/-- The exact IEEE double of Math.PI, as a rational. -/
def piDouble : ℚ := 884279719003555 / 281474976710656

/-- The exact IEEE double of Math.E, as a rational. -/
def eDouble : ℚ := 6121026514868073 / 2251799813685248

/-- The cells backing the global `ArkValRef`s, in declaration order
(document is absent: no DOM in the host). -/
def globalsCells : List ArkVal :=
  [.concrete (.num piDouble),
   .concrete (.num eDouble),
   .nativeFn none .printFn,
   .nativeFn none .debugFn,
   .nativeObject "fs",
   .nativeObject "JSON",
   .nativeObject "process",
   .nativeFn none .regExpFn]

/-- The `globals` map: each name bound to an `ArkValRef` into
`globalsCells`.  The debug name that `getIndex` attaches on lookup is
carried directly on the ref. -/
def globalsList : List (String × ArkVal) :=
  [("pi", .valRef (some "pi") 0),
   ("e", .valRef (some "e") 1),
   ("print", .valRef (some "print") 2),
   ("debug", .valRef (some "debug") 3),
   ("fs", .valRef (some "fs") 4),
   ("JSON", .valRef (some "JSON") 5),
   ("process", .valRef (some "process") 6),
   ("RegExp", .valRef (some "RegExp") 7)]

/-- The `intrinsics` namespace: compile-time-only NativeFns, named on
insertion. -/
def intrinsicsList : List (String × ArkVal) :=
  [("pos", .nativeFn (some "pos") .posFn),
   ("neg", .nativeFn (some "neg") .negFn),
   ("not", .nativeFn (some "not") .notFn),
   ("~", .nativeFn (some "~") .bitNot),
   ("break", .nativeFn (some "break") .breakFn),
   ("continue", .nativeFn (some "continue") .continueFn),
   ("return", .nativeFn (some "return") .returnFn),
   ("=", .nativeFn (some "=") .eqFn),
   ("!=", .nativeFn (some "!=") .neFn),
   ("<", .nativeFn (some "<") .ltFn),
   ("<=", .nativeFn (some "<=") .leFn),
   (">", .nativeFn (some ">") .gtFn),
   (">=", .nativeFn (some ">=") .geFn),
   ("+", .nativeFn (some "+") .add),
   ("-", .nativeFn (some "-") .sub),
   ("*", .nativeFn (some "*") .mul),
   ("/", .nativeFn (some "/") .divFn),
   ("%", .nativeFn (some "%") .modFn),
   ("**", .nativeFn (some "**") .powFn),
   ("&", .nativeFn (some "&") .bitAnd),
   ("|", .nativeFn (some "|") .bitOr),
   ("^", .nativeFn (some "^") .bitXor),
   ("<<", .nativeFn (some "<<") .shl),
   (">>", .nativeFn (some ">>") .shr),
   (">>>", .nativeFn (some ">>>") .ushr)]

/-- Association-list lookup by string key. -/
def assocLookup : List (String × ArkVal) → String → Option ArkVal
  | [], _ => none
  | (k, v) :: rest, nm => if k = nm then some v else assocLookup rest nm

/-- `Environment.getIndex`: search the frames from the top for the LAST
position of the symbol among the frame's locals; fall back to the external
symbols (globals); otherwise a compile error. -/
def getIndexFrames (frames : List (List String × List String)) (nm : String)
    (lvl : Nat) : Option ArkVal :=
  match frames with
  | [] => none
  | (locs, _) :: rest =>
      match lastIdxOf locs nm with
      | some j => some (.stackRef (some nm) lvl j)
      | none => getIndexFrames rest nm (lvl + 1)

/-- `Environment.getIndex` (entry point). -/
def getIndex (env : CEnv) (nm : String) : Except CErr ArkVal :=
  match getIndexFrames env.stack nm 0 with
  | some r => .ok r
  | none =>
      match assocLookup globalsList nm with
      | some r => .ok r
      | none => .error (.undefinedSymbol nm)

/-- `symRef`: intrinsic shortcut, then lexical lookup, then the two capture
rewrites (prefer an existing capture slot; turn an outer-level StackRef into
a fresh CaptureRef, recording the name).  The free-variable entry records
the StackRef BEFORE rewriting. -/
def symRef (env : CEnv) (nm : String) : Except CErr (ArkVal × FVars × CEnv) :=
  match assocLookup intrinsicsList nm with
  | some v => .ok (v, [], env)
  | none =>
      match getIndex env nm with
      | .error e => .error e
      | .ok ref0 =>
          let fv : FVars :=
            match ref0 with
            | .stackRef _ _ _ => [(nm, [ref0])]
            | _ => []
          let ref1 :=
            match lastIdxOf (envCaptures env) nm with
            | some i => ArkVal.captureRef i
            | none => ref0
          match ref1 with
          | .stackRef _ lvl _ =>
              if lvl > 0 then
                .ok (.captureRef (envCaptures env).length, fv, envPushCapture nm env)
              else
                .ok (ref1, fv, env)
          | _ => .ok (ref1, fv, env)

/-- `checkParamList`: reject duplicate parameter names. -/
def checkParamList (params : List String) : Except CErr (List String) :=
  if params.Nodup then .ok params else .error .duplicateParams

/-- `arkParamList`: the form must be `["params", names…]` with every name a
string. -/
def arkParamList (j : Json) : Except CErr (List String) :=
  match j with
  | .arr (Json.str "params" :: rest) =>
      (match (rest.mapM (fun e => match e with
                         | Json.str s => some s
                         | _ => none)) with
       | some names => checkParamList names
       | none => .error .badParamType)
  | _ => .error (.invalidForm "params")

end Ark

namespace Ark

/-- Frame 0's local names. -/
def envLocals (env : CEnv) : List String :=
  match env.stack with
  | (locs, _) :: _ => locs
  | [] => []

/-- Result record of the compiler (`CompiledArk`): the expression and its
free-variable map. -/
structure Compiled where
  value : ArkVal
  freeVars : FVars

/-- `listToVals`: compile a list of forms left to right, merging their
free-variable maps in order, threading the environment (whose frame-0
captures array the source mutates in place) and the compile-time cell
accumulator for `ref` forms. -/
def compileListWith
    (comp : Json → CEnv → List ArkVal → Except CErr (ArkVal × FVars × CEnv × List ArkVal)) :
    List Json → CEnv → List ArkVal → Except CErr (List ArkVal × FVars × CEnv × List ArkVal)
  | [], env, acc => .ok ([], [], env, acc)
  | x :: xs, env, acc => do
      let (v, fv, env1, acc1) ← comp x env acc
      let (vs, fvs, env2, acc2) ← compileListWith comp xs env1 acc1
      .ok (v :: vs, fvMerge fv fvs, env2, acc2)

/-- Compile the fields of a JSON object (ArkObjectLiteral), in order. -/
def compileFieldsWith
    (comp : Json → CEnv → List ArkVal → Except CErr (ArkVal × FVars × CEnv × List ArkVal)) :
    List (String × Json) → CEnv → List ArkVal →
    Except CErr (List (String × ArkVal) × FVars × CEnv × List ArkVal)
  | [], env, acc => .ok ([], [], env, acc)
  | (k, x) :: xs, env, acc => do
      let (v, fv, env1, acc1) ← comp x env acc
      let (vs, fvs, env2, acc2) ← compileFieldsWith comp xs env1 acc1
      .ok ((k, v) :: vs, fvMerge fv fvs, env2, acc2)

/-- `doCompile` of parser.ts, fuel-indexed.  Atoms become literals or symbol
references; arrays dispatch on their first element; other objects become
object literals.  `ref` forms allocate their `ArkValRef` at compile time
(the accumulator holds the cell contents; addresses start after the global
cells).  The `map` form is outside the modelled fragment (no claim mentions
ArkMap). -/
def doCompile : Nat → Json → CEnv → List ArkVal →
    Except CErr (ArkVal × FVars × CEnv × List ArkVal)
  | 0, _, _, _ => .error (.invalidForm "out of fuel")
  | _ + 1, .null, env, acc => .ok (.concrete .null, [], env, acc)
  | _ + 1, .bool b, env, acc => .ok (.concrete (.bool b), [], env, acc)
  | _ + 1, .num q, env, acc => .ok (.concrete (.num q), [], env, acc)
  | _ + 1, .str s, env, acc =>
      (match symRef env s with
       | .ok (v, fv, env1) => .ok (v, fv, env1, acc)
       | .error e => .error e)
  | _ + 1, .arr (Json.str "str" :: rest), env, acc =>
      (match rest with
       | [Json.str s] => .ok (.concrete (.str s), [], env, acc)
       | _ => .error (.invalidForm "str"))
  | fuel + 1, .arr (Json.str "let" :: rest), env, acc =>
      (match rest with
       | [p, b] => do
           let params ← arkParamList p
           let orig := envLocals env
           let (body, fv, envC, acc1) ← doCompile fuel b (envPush params env) acc
           .ok (.letE params body, fvDelete params fv, envRestoreLocals orig envC, acc1)
       | _ => .error (.invalidForm "let"))
  | fuel + 1, .arr (Json.str "fn" :: rest), env, acc =>
      (match rest with
       | [p, b] => do
           let params ← arkParamList p
           let (body, fv, _, acc1) ← doCompile fuel b (envPushFrame (params, []) env) acc
           let fv1 := fvDelete params fv
           .ok (.fn params (fvFlatten fv1) body, fv1, env, acc1)
       | _ => .error (.invalidForm "fn"))
  | fuel + 1, .arr (Json.str "prop" :: rest), env, acc =>
      (match rest with
       | [Json.str nm, o] => do
           let (obj, fv, env1, acc1) ← doCompile fuel o env acc
           .ok (.property nm obj, fv, env1, acc1)
       | [_, _] => .error (.unmodelled "non-string property name")
       | _ => .error (.invalidForm "prop"))
  | fuel + 1, .arr (Json.str "ref" :: rest), env, acc =>
      (match rest with
       | [sub] => do
           let (c, fv, env1, acc1) ← doCompile fuel sub env acc
           .ok (.valRef none (globalsCells.length + acc1.length), fv, env1, acc1 ++ [c])
       | _ => .error (.invalidForm "ref"))
  | fuel + 1, .arr (Json.str "get" :: rest), env, acc =>
      (match rest with
       | [sub] => do
           let (c, fv, env1, acc1) ← doCompile fuel sub env acc
           .ok (.get c, fv, env1, acc1)
       | _ => .error (.invalidForm "get"))
  | fuel + 1, .arr (Json.str "set" :: rest), env, acc =>
      (match rest with
       | [r, v] => do
           let (cr, fvR, env1, acc1) ← doCompile fuel r env acc
           let (cv, fvV, env2, acc2) ← doCompile fuel v env1 acc1
           .ok (.set cr cv, fvMerge fvV fvR, env2, acc2)
       | _ => .error (.invalidForm "set"))
  | fuel + 1, .arr (Json.str "list" :: rest), env, acc => do
      let (elems, fv, env1, acc1) ← compileListWith (doCompile fuel) rest env acc
      .ok (.listLit elems, fv, env1, acc1)
  | _ + 1, .arr (Json.str "map" :: _), _, _ =>
      .error (.unmodelled "map form (ArkMap)")
  | fuel + 1, .arr (Json.str "seq" :: rest), env, acc =>
      (match rest with
       | [single] => doCompile fuel single env acc   -- single-element seq collapses
       | _ => do
           let (elems, fv, env1, acc1) ← compileListWith (doCompile fuel) rest env acc
           .ok (.seq elems, fv, env1, acc1))
  | fuel + 1, .arr (Json.str "if" :: rest), env, acc =>
      (match rest with
       | [c, t] => do
           let (cc, fvC, env1, acc1) ← doCompile fuel c env acc
           let (ct, fvT, env2, acc2) ← doCompile fuel t env1 acc1
           .ok (.ifE cc ct none, fvMerge fvC fvT, env2, acc2)
       | [c, t, e] => do
           let (cc, fvC, env1, acc1) ← doCompile fuel c env acc
           let (ct, fvT, env2, acc2) ← doCompile fuel t env1 acc1
           let (ce, fvE, env3, acc3) ← doCompile fuel e env2 acc2
           .ok (.ifE cc ct (some ce), fvMerge (fvMerge fvC fvT) fvE, env3, acc3)
       | _ => .error (.invalidForm "if"))
  | fuel + 1, .arr (Json.str "and" :: rest), env, acc =>
      (match rest with
       | [l, r] => do
           let (cl, fvL, env1, acc1) ← doCompile fuel l env acc
           let (cr, fvR, env2, acc2) ← doCompile fuel r env1 acc1
           .ok (.and cl cr, fvMerge fvL fvR, env2, acc2)
       | _ => .error (.invalidForm "and"))
  | fuel + 1, .arr (Json.str "or" :: rest), env, acc =>
      (match rest with
       | [l, r] => do
           let (cl, fvL, env1, acc1) ← doCompile fuel l env acc
           let (cr, fvR, env2, acc2) ← doCompile fuel r env1 acc1
           .ok (.or cl cr, fvMerge fvL fvR, env2, acc2)
       | _ => .error (.invalidForm "or"))
  | fuel + 1, .arr (Json.str "loop" :: rest), env, acc =>
      (match rest with
       | [b] => do
           let (cb, fv, env1, acc1) ← doCompile fuel b env acc
           .ok (.loop cb, fv, env1, acc1)
       | _ => .error (.invalidForm "loop"))
  | fuel + 1, .arr (h :: rest), env, acc => do
      -- default: a call form
      let (cf, fvF, env1, acc1) ← doCompile fuel h env acc
      let (args, fvA, env2, acc2) ← compileListWith (doCompile fuel) rest env1 acc1
      .ok (.call cf args, fvMerge fvA fvF, env2, acc2)
  | _ + 1, .arr [], env, acc =>
      -- an empty array falls through to the object-literal branch
      .ok (.objLit [], [], env, acc)
  | fuel + 1, .obj fields, env, acc => do
      let (vs, fv, env1, acc1) ← compileFieldsWith (doCompile fuel) fields env acc
      .ok (.objLit vs, fv, env1, acc1)

/-- `compile` (top level): compile in a fresh environment, then delete every
external (global) name from the free-variable map. -/
def compileTop (fuel : Nat) (j : Json) : Except CErr (Compiled × List ArkVal) := do
  let (v, fv, _, acc) ← doCompile fuel j ⟨[([], [])]⟩ []
  .ok (⟨v, fvDelete (globalsList.map Prod.fst) fv⟩, acc)

/-- Errors observable from `ArkState.run`: either an error raised during
evaluation, or the undefined-symbols error `run` itself raises (the only
place the source constructs that message). -/
inductive RunErr where
  | evalErr (e : EvalErr)
  | undefinedSymbols (names : List String)
deriving DecidableEq, Repr

/-- Outcome of `ArkState.run`. -/
inductive ROut where
  | val (v : ArkVal)
  | err (e : RunErr)
  | sig (g : Sig)
  | timeout

/-- Inject an evaluation outcome into a run outcome. -/
def liftOut : EOut × St → ROut × St
  | (.val v, s) => (.val v, s)
  | (.err e, s) => (.err (.evalErr e), s)
  | (.sig g, s) => (.sig g, s)
  | (.timeout, s) => (.timeout, s)

/-- `ArkState.run`: raise `Undefined symbols …` when the free-variable map
is non-empty (leaving the state untouched, before evaluating anything);
otherwise evaluate the compiled expression. -/
def run (fuel : Nat) (c : Compiled) (s : St) : ROut × St :=
  match c.freeVars with
  | [] => liftOut (eval fuel c.value s)
  | _ :: _ => (.err (.undefinedSymbols (fvKeys c.freeVars)), s)

/-- The initial state of a fresh `ArkState` given the compile-time cells:
global cells then compile-created `ref` cells, and the one initial stack
frame. -/
def initStateWith (acc : List ArkVal) : St :=
  ⟨globalsCells ++ acc, [], [], [([], [])]⟩

/-- Compile a JSON program and run it in a fresh state. -/
def runJson (fuel : Nat) (j : Json) : Option (ROut × St) :=
  match compileTop fuel j with
  | .ok (c, acc) => some (run fuel c (initStateWith acc))
  | .error _ => none

/-- The host-side result (`toHost` projection) of running a program, when
it produces a value. -/
def hostResult (fuel : Nat) (j : Json) : Option JsVal :=
  match runJson fuel j with
  | some (.val v, _) => some (toJs v)
  | _ => none

/-- Number of frames on the runtime stack after running a program. -/
def stackLenAfter (fuel : Nat) (j : Json) : Option Nat :=
  (runJson fuel j).map (fun r => r.2.stack.length)

end Ark

namespace Ark

/-- What `doSerialize` can return: a JSON value, possibly containing the
raw `undefined` the source puts in the else-slot of an `if`. -/
inductive SJson where
  | null
  | undef
  | bool (b : Bool)
  | num (q : ℚ)
  | nan
  | str (s : String)
  | arr (elems : List SJson)
  | obj (fields : List (String × SJson))
deriving Repr

/-- serialize.ts `doSerialize`, fuel-indexed (it follows `ArkValRef` cells
through the heap).  First the debug-name shortcut, then the `instanceof`
chain in source order.  `ArkLoop` is emitted with the tag `"and"`, exactly
as the source does.  Values the chain does not match fall through to
`val.toString()`, the default object string.  NativeObject property
enumeration is not modelled (empty object). -/
def doSerialize : Nat → ArkVal → St → SJson
  | 0, _, _ => .str "<fuel exhausted>"
  | fuel + 1, v, s =>
    match debugName v with
    | some nm => .str nm
    | none =>
      match v with
      | .concrete (.str t) => .arr [.str "str", .str t]
      | .concrete .null => .null
      | .concrete (.bool b) => .bool b
      | .concrete (.num q) => .num q
      | .concrete .nan => .nan
      | .propRef obj prop =>
          .arr [.str "ref", .arr [.str "prop", doSerialize fuel obj s, .str prop]]
      | .valRef _ a =>
          .arr [.str "ref", doSerialize fuel ((s.cells.get? a).getD .hostUndefined) s]
      | .get e => .arr [.str "get", doSerialize fuel e s]
      | .fn params _ body =>
          .arr [.str "fn", .arr (.str "params" :: params.map SJson.str),
                doSerialize fuel body s]
      | .object d =>
          .obj (((s.dicts.get? d).getD []).map (fun kv => (kv.fst, doSerialize fuel kv.snd s)))
      | .nativeObject _ => .obj []
      | .list a _ =>
          .arr (.str "list" :: ((s.arrays.get? a).getD []).map (fun e => doSerialize fuel e s))
      | .letE vars body =>
          .arr [.str "let", .arr (.str "params" :: vars.map SJson.str),
                doSerialize fuel body s]
      | .call f args =>
          .arr (doSerialize fuel f s :: args.map (fun e => doSerialize fuel e s))
      | .set r w => .arr [.str "set", doSerialize fuel r s, doSerialize fuel w s]
      | .property prop obj => .arr [.str "prop", .str prop, doSerialize fuel obj s]
      | .seq exps => .arr (.str "seq" :: exps.map (fun e => doSerialize fuel e s))
      | .ifE c t el =>
          .arr [.str "if", doSerialize fuel c s, doSerialize fuel t s,
                match el with
                | some e => doSerialize fuel e s
                | none => .undef]
      | .and l r => .arr [.str "and", doSerialize fuel l s, doSerialize fuel r s]
      | .or l r => .arr [.str "or", doSerialize fuel l s, doSerialize fuel r s]
      | .loop body => .arr [.str "and", doSerialize fuel body s]
      | .undef => .undef
      | _ => .str "[object Object]"

/-- Compile a JSON program and serialize the compiled expression
(`serializeVal ∘ compile`, before JSON.stringify). -/
def serializeCompiled (fuel : Nat) (j : Json) : Option SJson :=
  match compileTop fuel j with
  | .ok (c, acc) => some (doSerialize fuel c.value (initStateWith acc))
  | .error _ => none

/-- The intern pool of `ConcreteInterned` (interpreter.ts lines 113-137):
a process-wide map from raw value to the wrapped instance.  Instances are
identified by allocation number; the claim's liveness hypothesis ("so long
as the first instance is still live") means no finalization runs between
the two calls, so deletions need not be modelled. -/
structure InternState where
  pool : List (Prim × Nat)
  nextId : Nat

/-- Look a raw value up in the pool (JS Map.get; NaN is a valid key under
SameValueZero, which `Prim.nan` mirrors). -/
def lookupPrim : List (Prim × Nat) → Prim → Option Nat
  | [], _ => none
  | (k, i) :: rest, r => if k = r then some i else lookupPrim rest r

/-- `ConcreteInterned.value`: return the interned instance for the raw
value, creating and registering a fresh one on a miss. -/
def internValue (r : Prim) (s : InternState) : Nat × InternState :=
  match lookupPrim s.pool r with
  | some i => (i, s)
  | none => (s.nextId, ⟨s.pool ++ [(r, s.nextId)], s.nextId + 1⟩)

/-- Pool well-formedness: all allocated ids are below the allocation
counter, keys are distinct, ids are distinct.  Holds for every state
reachable from the empty pool. -/
def poolWF (s : InternState) : Prop :=
  (∀ e ∈ s.pool, e.2 < s.nextId) ∧
  (s.pool.map Prod.fst).Nodup ∧ (s.pool.map Prod.snd).Nodup

end Ark

namespace Ark

/-- Shorthand for an integer JSON number. -/
def jNum (n : ℤ) : Json := .num (n : ℚ)

/-- C1 counterexample program: bind `s` and `f`; set `s` to 1 through its
binding cell; store in `f` a closure that reads `s` (captured); then mutate
`s` via `Set` on the `["ref","s"]` form, which writes the stack slot itself;
finally call the closure.  The closure's `CaptureRef` still reaches the old
cell, so the read yields 1, not the newly written 2. -/
def c1BadJson : Json :=
  .arr [.str "let", .arr [.str "params", .str "s", .str "f"],
    .arr [.str "seq",
      .arr [.str "set", .str "s", jNum 1],
      .arr [.str "set", .str "f",
        .arr [.str "fn", .arr [.str "params"], .arr [.str "get", .str "s"]]],
      .arr [.str "set", .arr [.str "ref", .str "s"], jNum 2],
      .arr [.arr [.str "get", .str "f"]]]]

/-- C1 amended program family: same shape, but the mutation is a `Set` on
the bare symbol, which writes through the binding's cell; the closure then
observes the newly written value `q`. -/
def c1GoodJson (q : ℚ) : Json :=
  .arr [.str "let", .arr [.str "params", .str "s", .str "f"],
    .arr [.str "seq",
      .arr [.str "set", .str "s", jNum 1],
      .arr [.str "set", .str "f",
        .arr [.str "fn", .arr [.str "params"], .arr [.str "get", .str "s"]]],
      .arr [.str "set", .str "s", .num q],
      .arr [.arr [.str "get", .str "f"]]]]

/-- C2 failing input: call a closure whose body exits via the `return`
intrinsic. -/
def c2Json : Json :=
  .arr [.arr [.str "fn", .arr [.str "params"], .arr [.str "return", jNum 5]]]

/-- C3 failing input: a `Let` of one variable whose body returns normally. -/
def c3Json : Json := .arr [.str "let", .arr [.str "params", .str "a"], .null]

/-- C4 program as written in the claim: bare `x` in the function body. -/
def c4Json : Json :=
  .arr [.arr [.str "fn", .arr [.str "params", .str "x"],
              .arr [.str "+", .str "x", jNum 1]], jNum 41]

/-- C4 amended program: the body reads `x` through the `get` form. -/
def c4FixedJson : Json :=
  .arr [.arr [.str "fn", .arr [.str "params", .str "x"],
              .arr [.str "+", .arr [.str "get", .str "x"], jNum 1]], jNum 41]

/-- C5 failing input: a loop form. -/
def c5LoopJson : Json := .arr [.str "loop", .null]

/-- C1 counterexample: in `c1BadJson` a closure captures `s` and the
enclosing binding of `s` is afterwards mutated via `Set` (writing 2); the
subsequent `Get` of `s` inside the closure's call nevertheless yields the
OLD value 1, refuting the claim as stated. -/
theorem c1_capture_counterexample :
    hostResult 80 c1BadJson = some (.num 1) ∧
      hostResult 80 c1BadJson ≠ some (.num 2) := by
  exact ⟨rfl, by decide⟩

/-- Updating a position within bounds makes `get?` return the new value. -/
theorem listUpd_get? {α : Type} :
    ∀ (l : List α) (n : Nat) (v : α), n < l.length → (listUpd l n v).get? n = some v := by
  intro l
  induction l with
  | nil => intro n v h; simp at h
  | cons x xs ih =>
      intro n v h
      cases n with
      | zero => rfl
      | succ m =>
          simp only [listUpd, List.get?]
          exact ih m v (by simpa using h)

/-- C1 (amended): capture soundness for writes through the binding's cell,
in full generality over states, closures, target and value expressions, and
written values.
(i) Every `Set` whose target expression evaluates to the binding's
`ArkValRef` cell — as a bare captured-or-local symbol does, since the stack
slot holds the cell — writes the new value into that cell and returns it.
(ii) In every state in which the current frame's capture slot `i` holds
the wrapper cell that `captureFreeVars` created around the binding's cell
(cells at `w` hold the binding's cell, cells at `c` hold its current
content `v`), a `Get` through `CaptureRef i` — the expression a read of
the captured name compiles to — yields `v` unchanged, for every `v` other
than the `ArkUndefined` sentinel (which `ArkGet` reports as an
uninitialized symbol).
(iii) The write of (i) indeed makes the cell's content the newly written
value; composing (i), (iii) and (ii): after the enclosing binding is
mutated via such a `Set`, a subsequent `Get` of the name evaluated inside
a call of the closure yields the newly written value.  (A `Set` through a
`["ref", s]` form instead replaces the stack slot itself and is not
observed by the closure — see the counterexample.) -/
theorem c1_capture_amended (fuel : Nat) :
    (∀ (refE valE : ArkVal) (s s1 s2 : St) (nm : Option String) (c : Nat) (v : ArkVal),
        eval fuel refE s = (.val (.valRef nm c), s1) →
        eval fuel valE s1 = (.val v, s2) →
        eval (fuel + 1) (.set refE valE) s = (.val v, setCell c v s2))
    ∧ (∀ (t : St) (i w c : Nat) (nmw nmc : Option String) (v : ArkVal),
        (frameCaptures t).get? i = some (.valRef nmw w) →
        t.cells.get? w = some (.valRef nmc c) →
        t.cells.get? c = some v →
        v ≠ .undef →
        eval (fuel + 3) (.get (.captureRef i)) t = (.val v, t))
    ∧ (∀ (t : St) (c : Nat) (v : ArkVal),
        c < t.cells.length → (setCell c v t).cells.get? c = some v) := by
  refine ⟨?_, ?_, ?_⟩
  · intro refE valE s s1 s2 nm c v h1 h2
    simp only [eval, h1, h2]
    simp [isRefB, refSet]
  · intro t i w c nmw nmc v hcap hw hc hne
    cases v
    case undef => exact absurd rfl hne
    all_goals simp only [eval, refGet, hcap, hw, hc, Option.getD_some]
  · intro t c v hlt
    simp only [setCell]
    exact listUpd_get? t.cells c v hlt

/-- A minimal state for the C1 witness: the one stack frame's local slot 0
holds the binding's cell (cell address 1, currently holding 5), and its
capture slot 0 holds the wrapper cell (cell address 0) around that binding
cell, exactly the layout `captureFreeVars` and a closure call produce. -/
def c1WitnessSt : St :=
  ⟨[.valRef (some "s") 1, .concrete (.num 5)], [], [],
   [([.valRef (some "s") 1], [.valRef none 0])]⟩

/-- Closed witness for C1: in `c1WitnessSt`, a `Set` on the bare symbol
writes 9 into the binding's cell, and the `Get` through the capture then
yields the newly written 9. -/
theorem c1_capture_witness :
    eval 2 (.set (.stackRef (some "s") 0 0) (.concrete (.num 9))) c1WitnessSt =
      (.val (.concrete (.num 9)), setCell 1 (.concrete (.num 9)) c1WitnessSt)
    ∧ eval 4 (.get (.captureRef 0)) (setCell 1 (.concrete (.num 9)) c1WitnessSt) =
      (.val (.concrete (.num 9)), setCell 1 (.concrete (.num 9)) c1WitnessSt) :=
  ⟨(c1_capture_amended 1).1 (.stackRef (some "s") 0 0) (.concrete (.num 9))
      c1WitnessSt c1WitnessSt c1WitnessSt (some "s") 1 (.concrete (.num 9)) rfl rfl,
   (c1_capture_amended 1).2.1 (setCell 1 (.concrete (.num 9)) c1WitnessSt) 0 0 1
      none (some "s") (.concrete (.num 9)) rfl rfl rfl (fun h => nomatch h)⟩

/-- End-to-end corroboration of the amended C1 through the whole pipeline
(compiler included): in the program family `c1GoodJson q` — mutation via a
`Set` on the bare symbol — the closure observes every written value `q`. -/
theorem capture_set_end_to_end_demo (q : ℚ) :
    hostResult 80 (c1GoodJson q) = some (.num q) := rfl

/-- C2: the code violates the claim.  Calling a closure that exits via a
`Return` signal yields the return payload, but the frame pushed for the
call is NOT popped: the `catch` in `ArkClosure.call` skips `popFrame`, so
the stack grows from its initial 1 frame to 2. -/
theorem c2_return_leaks_frame :
    hostResult 50 c2Json = some (.num 5) ∧
      stackLenAfter 50 c2Json = some 2 ∧
      (initStateWith []).stack.length = 1 := by
  exact ⟨rfl, rfl, rfl⟩

/-- C3: the code violates the claim.  After `Let(["a"], null)` returns
normally, `RuntimeStack.pop(1)` removes a whole frame from the BOTTOM of
the stack (`Array.prototype.pop` on the frame array) instead of removing
the pushed binding cell, so the depth drops from 1 to 0. -/
theorem c3_let_pops_bottom_frame :
    stackLenAfter 50 c3Json = some 0 ∧
      (initStateWith []).stack.length = 1 ∧
      hostResult 50 c3Json = some .null := by
  exact ⟨rfl, rfl, rfl⟩

/-- C4 counterexample: the bare symbol `x` evaluates to the parameter's
`ArkValRef` cell, not to the bound value 41; the `+` intrinsic then
concatenates the cell's ToPrimitive string with "1", so the program yields
the host string "[object Object]1", not the host number 42. -/
theorem c4_bare_symbol_counterexample :
    hostResult 50 c4Json = some (.str "[object Object]1") ∧
      hostResult 50 c4Json ≠ some (.num 42) := by
  exact ⟨rfl, by decide⟩

/-- C4 (amended): a bare symbol denotes the binding's reference cell;
reading the bound argument requires the `get` form.  With the body
`["+", ["get","x"], 1]`, compiling and running the program with the default
environment produces the host number 42. -/
theorem c4_amended_get_form :
    hostResult 50 c4FixedJson = some (.num 42) := by decide

/-- C5: the code violates the round-trip claim at the `loop` form:
`serialize(compile(["loop", null]))` produces the tag "and" (one child),
not "loop" — `doSerialize`'s ArkLoop branch emits 'and'. -/
theorem c5_loop_serializes_as_and :
    serializeCompiled 50 c5LoopJson = some (.arr [.str "and", .null]) ∧
      "and" ≠ "loop" := by
  exact ⟨rfl, by decide⟩

end Ark

namespace Ark

/-- C6: `ArkState.run` raises the undefined-symbols runtime error naming the
free variables if and only if the compiled program's free-variable map is
non-empty; in that case it raises before evaluating anything (the state,
including the runtime stack, is returned unchanged), and when the map is
empty it evaluates the compiled expression and returns its outcome. -/
theorem c6_run_undefined_symbols (fuel : Nat) (c : Compiled) (s : St) :
    (c.freeVars ≠ [] → run fuel c s = (.err (.undefinedSymbols (fvKeys c.freeVars)), s))
    ∧ (c.freeVars = [] → run fuel c s = liftOut (eval fuel c.value s))
    ∧ ((∃ ns, (run fuel c s).1 = .err (.undefinedSymbols ns)) ↔ c.freeVars ≠ []) := by
  obtain ⟨v, fv⟩ := c
  cases fv with
  | nil =>
      refine ⟨fun h => absurd rfl h, fun _ => rfl, ⟨fun h => ?_, fun h => absurd rfl h⟩⟩
      exfalso
      obtain ⟨ns, hns⟩ := h
      rcases heval : eval fuel v s with ⟨o, s'⟩
      have : (liftOut (eval fuel v s)).1 = .err (.undefinedSymbols ns) := hns
      rw [heval] at this
      cases o <;> simp [liftOut] at this
  | cons hd tl =>
      refine ⟨fun _ => rfl, fun h => absurd h (List.cons_ne_nil hd tl),
        ⟨fun _ => List.cons_ne_nil hd tl, fun _ => ⟨fvKeys (hd :: tl), rfl⟩⟩⟩

/-- Closed witness for C6, at a compiled record with one free variable. -/
theorem c6_witness :
    run 1 ⟨.concrete .null, [("x", [])]⟩ (initStateWith []) =
      (.err (.undefinedSymbols ["x"]), initStateWith []) :=
  (c6_run_undefined_symbols 1 ⟨.concrete .null, [("x", [])]⟩ (initStateWith [])).1
    (List.cons_ne_nil _ _)

/-- A `lookupPrim` hit comes from an entry of the pool. -/
theorem lookupPrim_mem {l : List (Prim × Nat)} {r : Prim} {i : Nat}
    (h : lookupPrim l r = some i) : (r, i) ∈ l := by
  induction l with
  | nil => simp [lookupPrim] at h
  | cons hd tl ih =>
      obtain ⟨k, j⟩ := hd
      by_cases hk : k = r
      · subst hk
        simp [lookupPrim] at h
        subst h
        exact List.mem_cons_self _ _
      · simp [lookupPrim, hk] at h
        exact List.mem_cons_of_mem _ (ih h)

/-- Appending a fresh entry for a previously missing key makes it found. -/
theorem lookupPrim_append_self {l : List (Prim × Nat)} {r : Prim} {n : Nat}
    (h : lookupPrim l r = none) : lookupPrim (l ++ [(r, n)]) r = some n := by
  induction l with
  | nil => simp [lookupPrim]
  | cons hd tl ih =>
      obtain ⟨k, j⟩ := hd
      by_cases hk : k = r
      · simp [lookupPrim, hk] at h
      · rw [lookupPrim, if_neg hk] at h
        rw [List.cons_append, lookupPrim, if_neg hk]
        exact ih h

/-- Appending an entry for a different key does not change a lookup. -/
theorem lookupPrim_append_ne {l : List (Prim × Nat)} {r r' : Prim} {n : Nat}
    (hne : r' ≠ r) : lookupPrim (l ++ [(r, n)]) r' = lookupPrim l r' := by
  induction l with
  | nil => simp [lookupPrim, hne.symm]
  | cons hd tl ih =>
      obtain ⟨k, j⟩ := hd
      by_cases hk : k = r'
      · simp [lookupPrim, hk]
      · simp [lookupPrim, hk, ih]

/-- In a pool whose instance ids are distinct, two entries sharing an id
have the same key. -/
theorem sndNodup_key_eq {l : List (Prim × Nat)} (h : (l.map Prod.snd).Nodup)
    {a b : Prim} {x : Nat} (ha : (a, x) ∈ l) (hb : (b, x) ∈ l) : a = b := by
  induction l with
  | nil => cases ha
  | cons hd tl ih =>
      obtain ⟨c, y⟩ := hd
      simp only [List.map_cons, List.nodup_cons] at h
      obtain ⟨hnotin, hnd⟩ := h
      rcases List.mem_cons.mp ha with ha1 | ha2
      · rcases List.mem_cons.mp hb with hb1 | hb2
        · injection ha1 with h1 h2
          injection hb1 with h3 h4
          rw [h1, h3]
        · exfalso
          injection ha1 with h1 h2
          apply hnotin
          rw [← h2]
          exact List.mem_map_of_mem Prod.snd hb2
      · rcases List.mem_cons.mp hb with hb1 | hb2
        · exfalso
          injection hb1 with h3 h4
          apply hnotin
          rw [← h4]
          exact List.mem_map_of_mem Prod.snd ha2
        · exact ih hnd ha2 hb2

/-- C7: for a well-formed intern pool (which the claim's liveness hypothesis
guarantees: no finalization runs while the first instance is live), a second
interning call returns the SAME instance exactly when the raw value is the
same: `C(r) === C(r)`, and reference equality on interned values coincides
with raw-value equality.  The four constructors Null/Bool/Num/Str all
funnel through `ConcreteInterned.value`, modelled by `internValue` over
their union `Prim`. -/
theorem c7_interned_identity_iff (s : InternState) (r r' : Prim) (hwf : poolWF s) :
    (internValue r' (internValue r s).2).1 = (internValue r s).1 ↔ r' = r := by
  obtain ⟨hbound, _hkeys, hids⟩ := hwf
  by_cases hrr : r' = r
  · subst hrr
    refine ⟨fun _ => rfl, fun _ => ?_⟩
    cases h : lookupPrim s.pool r' with
    | some i => simp [internValue, h]
    | none => simp [internValue, h, lookupPrim_append_self h]
  · refine ⟨fun heq => ?_, fun h => absurd h hrr⟩
    exfalso
    cases h : lookupPrim s.pool r with
    | some i =>
        simp only [internValue, h] at heq
        cases h' : lookupPrim s.pool r' with
        | some j =>
            simp only [h'] at heq
            exact hrr (sndNodup_key_eq hids (lookupPrim_mem h')
              (heq ▸ lookupPrim_mem h))
        | none =>
            simp only [h'] at heq
            have := hbound _ (lookupPrim_mem h)
            omega
    | none =>
        simp only [internValue, h, lookupPrim_append_ne hrr] at heq
        cases h' : lookupPrim s.pool r' with
        | some j =>
            simp only [h'] at heq
            have := hbound _ (lookupPrim_mem h')
            omega
        | none =>
            simp only [h'] at heq
            omega

/-- Closed witness for C7: interning 3 twice from the empty pool yields the
same instance. -/
theorem c7_witness :
    (internValue (.num 3) (internValue (.num 3) ⟨[], 0⟩).2).1 =
      (internValue (.num 3) ⟨[], 0⟩).1 :=
  (c7_interned_identity_iff ⟨[], 0⟩ (.num 3) (.num 3)
    ⟨fun e he => absurd he (List.not_mem_nil e), List.nodup_nil, List.nodup_nil⟩).mpr rfl

end Ark

namespace Ark

/-- C8: in `ArkSet.eval`, the value expression is fully evaluated BEFORE
the `instanceof ArkRef` check on the evaluated target: whenever the target
evaluates to a non-reference, the whole `Set` fails with Invalid assignment
but the resulting state is the state AFTER evaluating the value expression
(its side effects have already happened). -/
theorem c8_set_value_evaluated_before_check (fuel : Nat) (refE valE : ArkVal)
    (s : St) (x : ArkVal) (s1 : St) (res : ArkVal) (s2 : St)
    (hr : eval fuel refE s = (.val x, s1)) (hx : isRefB x = false)
    (hv : eval fuel valE s1 = (.val res, s2)) :
    eval (fuel + 1) (.set refE valE) s = (.err .invalidAssignment, s2) := by
  simp only [eval, hr, hv, hx]
  simp

/-- Closed witness for C8: assigning through a number literal fails with
Invalid assignment after the value was evaluated. -/
theorem c8_witness :
    eval 2 (.set (.concrete (.num 1)) (.concrete (.num 7))) (initStateWith []) =
      (.err .invalidAssignment, initStateWith []) :=
  c8_set_value_evaluated_before_check 1 (.concrete (.num 1)) (.concrete (.num 7))
    (initStateWith []) (.concrete (.num 1)) (initStateWith [])
    (.concrete (.num 7)) (initStateWith []) rfl rfl rfl

/-- C9: for an `If` with no else branch, when the condition's host-coerced
truthiness is false, evaluation returns the interned `Null` value and the
then-branch is never evaluated: the result state is exactly the state after
the condition, for EVERY then-expression. -/
theorem c9_if_false_no_else (fuel : Nat) (cond thenE : ArkVal) (s : St)
    (v : ArkVal) (s1 : St)
    (hc : eval fuel cond s = (.val v, s1)) (hf : jsTruthy (toJs v) = false) :
    eval (fuel + 1) (.ifE cond thenE none) s = (.val (.concrete .null), s1) := by
  simp only [eval, hc, hf]
  simp

/-- Closed witness for C9. -/
theorem c9_witness :
    eval 2 (.ifE (.concrete (.bool false)) (.concrete (.num 1)) none)
        (initStateWith []) =
      (.val (.concrete .null), initStateWith []) :=
  c9_if_false_no_else 1 (.concrete (.bool false)) (.concrete (.num 1))
    (initStateWith []) (.concrete (.bool false)) (initStateWith []) rfl rfl

/-- C10: calling an `ArkList`'s `get` method with an integer index: when
`0 ≤ i < length` it returns the i-th element of the underlying sequence;
for every out-of-range integer index it returns the raw host `undefined`
(which is outside the Ark value set — `ArkVal.hostUndefined` is none of the
modelled Ark values), and no runtime error is raised (the outcome is a
value, not an error). -/
theorem c10_list_get (s : St) (a : Nat) (elems : List ArkVal) (i : ℤ)
    (hmem : s.arrays.get? a = some elems) :
    (0 ≤ i ∧ i.toNat < elems.length →
       callNative (.listGet a) [.concrete (.num (i : ℚ))] s =
         (.val (elems.getD i.toNat .hostUndefined), s))
    ∧ (¬(0 ≤ i ∧ i.toNat < elems.length) →
       callNative (.listGet a) [.concrete (.num (i : ℚ))] s =
         (.val .hostUndefined, s)) := by
  constructor
  · rintro ⟨hi0, hilt⟩
    simp only [callNative, argOr, hmem, List.get?, Option.getD_some, toJs]
    split
    · rfl
    · next hno =>
        exfalso
        apply hno
        refine ⟨Rat.den_intCast i, ?_, ?_⟩
        · rw [Rat.num_intCast]; exact hi0
        · rw [Rat.num_intCast]; omega
  · intro hni
    simp only [callNative, argOr, hmem, List.get?, Option.getD_some, toJs]
    split
    · next hyes =>
        exfalso
        obtain ⟨hden, hge, hlt⟩ := hyes
        rw [Rat.num_intCast] at hge hlt
        exact hni ⟨hge, by omega⟩
    · rfl

/-- Closed witness for C10: reading index 1 of a two-element list. -/
theorem c10_witness :
    callNative (.listGet 0) [.concrete (.num ((1 : ℤ) : ℚ))]
        ⟨[], [[.concrete (.num 10), .concrete (.num 20)]], [], [([], [])]⟩ =
      (.val (.concrete (.num 20)),
        ⟨[], [[.concrete (.num 10), .concrete (.num 20)]], [], [([], [])]⟩) :=
  (c10_list_get ⟨[], [[.concrete (.num 10), .concrete (.num 20)]], [], [([], [])]⟩
    0 [.concrete (.num 10), .concrete (.num 20)] 1 rfl).1 (by decide)

end Ark
